import Mathlib

/-!
Shallow embedding of the PatrickStar chunk-based memory management core.

The embedding covers:
* `src/client.py` — `HybridPSClient` (`prepare_device`, `access`, `release`,
  `new_tensor`, `chunk_move`);
* `src/patrickstar/manager/manager.py` — `PatrickStarManager`
  (`available_chunk_mem`, `tiktac`).

The repository snapshot does not ship `chunk.py`, `chunk_list.py`,
`metronome.py` or the `HybridPSManager` used by `client.py`; those
collaborators are modelled from the specification (each such definition says
so in its doc comment).  All memory quantities are modelled as exact
rationals; device indices are dropped (the code only ever uses `cpu` and
`cuda:0`).
-/

namespace PatrickStar

/-- Device classes: the code hard-codes a two-tier topology `cpu` / `cuda`. -/
inductive Device where
  | cpu
  | cuda
deriving DecidableEq, Repr

/-- `const.AccessType` — which payload of a parameter is touched. -/
inductive AccessType where
  | DATA
  | GRAD
deriving DecidableEq, Repr

/-- `const.PSTensorStatus`. -/
inductive PSTensorStatus where
  | UNINIT
  | HOLD
  | COMPUTE
  | FREE
deriving DecidableEq, Repr

/-- `const.PSChunkStatus` — aggregate status of a chunk. -/
inductive PSChunkStatus where
  | COMPUTE
  | HOLD
  | FREE
deriving DecidableEq, Repr

/-- `patrickstar.core.const.TrainingStage`. -/
inductive TrainingStage where
  | UNSTART
  | FWD
  | BWD
  | ADAM
deriving DecidableEq, Repr

/-- Error kinds raised by the client / manager code (the Python code raises
ad-hoc `RuntimeError`s and strings; the spec's taxonomy names them). -/
inductive PSError where
  | capacityExceeded
  | invalidAccess
  | keyError
  | assertionError
deriving DecidableEq, Repr

/-- Modelled from the spec: per-tensor bookkeeping record held by a chunk
(`TensorInfo` of `chunk.py`, which is not in the snapshot): tensor id,
extent (element count) and occupancy status. -/
structure TensorInfo where
  tensor_id : ℕ
  numel : ℚ
  status : PSTensorStatus
deriving DecidableEq, Repr

/-- Modelled from the spec: a `Chunk` (`chunk.py` is not in the snapshot) is a
fixed-capacity buffer on exactly one device with an ordered list of tensor
records and a last-touch stamp used for LRU eviction ranking. -/
structure Chunk where
  capacity : ℚ
  device : Device
  touch_time : ℕ
  tensor_info_list : List TensorInfo
deriving DecidableEq, Repr

/-- Modelled from the spec: aggregate chunk status — COMPUTE if any member is
COMPUTE, else HOLD if any member is HOLD, else FREE. -/
def Chunk.get_status (c : Chunk) : PSChunkStatus :=
  if c.tensor_info_list.any (fun ti => decide (ti.status = PSTensorStatus.COMPUTE)) then
    PSChunkStatus.COMPUTE
  else if c.tensor_info_list.any (fun ti => decide (ti.status = PSTensorStatus.HOLD)) then
    PSChunkStatus.HOLD
  else
    PSChunkStatus.FREE

/-- Modelled from the spec: sum of member tensor extents of a chunk. -/
def Chunk.used_mem (c : Chunk) : ℚ :=
  (c.tensor_info_list.map TensorInfo.numel).sum

/-- Modelled from the spec: remaining free capacity of a chunk. -/
def Chunk.free_mem (c : Chunk) : ℚ :=
  c.capacity - c.used_mem

/-- Modelled from the spec: `Chunk.touch()` stamps the chunk's last-access
moment (the stamp value is passed in explicitly by the caller's clock). -/
def Chunk.touch (c : Chunk) (now : ℕ) : Chunk :=
  { c with touch_time := now }

/-- Modelled from the spec: `Chunk.move(target_device)` relocates the whole
buffer (and with it every member tensor) to the target device. -/
def Chunk.move (c : Chunk) (dev : Device) : Chunk :=
  { c with device := dev }

/-- Modelled from the spec: `TensorInfoList.set_status(tensor_id, status)` —
update the status of the record with the given tensor id. -/
def Chunk.set_status (c : Chunk) (tid : ℕ) (st : PSTensorStatus) : Chunk :=
  let infos := c.tensor_info_list.map
    (fun ti => if ti.tensor_id = tid then { ti with status := st } else ti)
  { c with tensor_info_list := infos }

/-- Whether the chunk owns a record for the given tensor id. -/
def Chunk.has_tensor (c : Chunk) (tid : ℕ) : Bool :=
  c.tensor_info_list.any (fun ti => decide (ti.tensor_id = tid))

/-- Status of the record with the given tensor id, if present. -/
def Chunk.status_of (c : Chunk) (tid : ℕ) : Option PSTensorStatus :=
  (c.tensor_info_list.find? (fun ti => decide (ti.tensor_id = tid))).map TensorInfo.status

/-- Modelled from the spec: register a new tensor record inside a chunk. -/
def Chunk.add_tensor (c : Chunk) (tid : ℕ) (numel : ℚ) : Chunk :=
  let infos := c.tensor_info_list ++ [{ tensor_id := tid, numel := numel, status := PSTensorStatus.UNINIT }]
  { c with tensor_info_list := infos }

/-! ### ChunkList operations

`chunk_list.py` is not in the snapshot; its operations are modelled from the
spec (§4.3).  A `ChunkList` is represented as a `List Chunk` whose position is
the chunk id (ids are assigned monotonically and chunks are never deleted). -/

/-- Move the chunk at index `cid` to `dev` (the guarded move performed by
`HybridPSClient.chunk_move`: the underlying `Chunk.move` runs only when the
devices differ).  Out-of-range ids leave the list unchanged. -/
def chunkListMove (cs : List Chunk) (cid : ℕ) (dev : Device) : List Chunk :=
  match cs.get? cid with
  | none => cs
  | some c => if c.device ≠ dev then cs.set cid (c.move dev) else cs

/-- Update the chunk at index `cid` by setting the status of tensor `tid`. -/
def chunkListSetStatus (cs : List Chunk) (cid : ℕ) (tid : ℕ) (st : PSTensorStatus) :
    List Chunk :=
  match cs.get? cid with
  | none => cs
  | some c => cs.set cid (c.set_status tid st)

/-- Modelled from the spec: `ChunkList.get_chunk_memory_used(device)` — sum of
capacities of chunks currently resident on the device. -/
def get_chunk_memory_used (cs : List Chunk) (dev : Device) : ℚ :=
  ((cs.filter (fun c => decide (c.device = dev))).map Chunk.capacity).sum

/-- Insertion step of the LRU sort used by `make_room` (ascending touch time). -/
def insertByTouch (x : ℕ × Chunk) : List (ℕ × Chunk) → List (ℕ × Chunk)
  | [] => [x]
  | y :: ys =>
      if x.2.touch_time ≤ y.2.touch_time then x :: y :: ys else y :: insertByTouch x ys

/-- Sort indexed chunks by ascending touch time (least recently touched first). -/
def sortByTouch : List (ℕ × Chunk) → List (ℕ × Chunk)
  | [] => []
  | x :: xs => insertByTouch x (sortByTouch xs)

/-- Accumulate victims until the freed capacity reaches the requested size. -/
def selectVictims (need : ℚ) : List (ℕ × Chunk) → List ℕ
  | [] => []
  | ic :: rest =>
      if need ≤ 0 then [] else ic.1 :: selectVictims (need - ic.2.capacity) rest

/-- Capacity that eviction could free at best: the total capacity of chunks
resident on the device whose aggregate status is not COMPUTE. -/
def evictable_mem (dev : Device) (cs : List Chunk) : ℚ :=
  ((cs.filter
    (fun c => decide (c.device = dev) && decide (c.get_status ≠ PSChunkStatus.COMPUTE))).map
      Chunk.capacity).sum

/-- Modelled from the spec: `ChunkList.make_room(need_size, device)` selects
resident chunks on `device` whose aggregate status is not COMPUTE, least
recently touched first, accumulating until the freed capacity covers the
request, and returns the selected chunk ids (selection only — no migration).
When no combination of non-COMPUTE chunks can free the requested capacity —
even maximal eviction falls short — this is a fatal capacity failure
propagated to the caller. -/
def make_room (need : ℚ) (dev : Device) (cs : List Chunk) : Except PSError (List ℕ) :=
  if evictable_mem dev cs < need then
    Except.error PSError.capacityExceeded
  else
    Except.ok (selectVictims need
      (sortByTouch (cs.enum.filter
        (fun ic => decide (ic.2.device = dev) && decide (ic.2.get_status ≠ PSChunkStatus.COMPUTE)))))

/-- Modelled from the spec: `ChunkList.allocate(numel, tensor_id)` — scan
chunks in id order for one with enough free capacity; otherwise append a new
chunk sized `max default_chunk_size numel` on the default device, and register
the tensor record there.  Returns the chosen chunk id and the new list. -/
def chunkListAllocate (default_chunk_size : ℚ) (cs : List Chunk) (numel : ℚ) (tid : ℕ) :
    ℕ × List Chunk :=
  match cs.findIdx? (fun c => decide (numel ≤ c.free_mem)) with
  | some i =>
      match cs.get? i with
      | some c => (i, cs.set i (c.add_tensor tid numel))
      | none => (i, cs)
  | none =>
      (cs.length,
        cs ++ [{ capacity := max default_chunk_size numel
                 device := Device.cpu
                 touch_time := 0
                 tensor_info_list := [{ tensor_id := tid, numel := numel, status := PSTensorStatus.UNINIT }] }])

/-! ### HybridPSClient (`src/client.py`) -/

/-- Modelled from the spec: the `HybridPSManager` singleton consulted by
`client.py` (its module is not in the snapshot).  It answers, per device, the
total configured capacity (`max_mem`) and the currently available memory
(`available_mem`). -/
structure HybridPSManagerModel where
  max_mem : Device → ℚ
  available_mem : Device → ℚ

/-- The per-parameter attributes `_convert_to_ps_param` injects on a torch
parameter.  `is_ps_param` models the presence of the `ps_data_id` attribute
(`HybridPSClient.is_ps_param` is `hasattr(parameter, 'ps_data_id')`). -/
structure PSParam where
  is_ps_param : Bool
  ps_data_id : ℕ
  ps_grad_id : ℕ
  compute_device : Device
deriving DecidableEq, Repr

/-- Client state: the chunk list (position = chunk id), the default chunk
size, and the `dict_tensor_id_chunk_id` binding table. -/
structure ClientState where
  chunk_list : List Chunk
  default_chunk_size : ℚ
  dict_tensor_id_chunk_id : List (ℕ × ℕ)
deriving DecidableEq, Repr

/-- Lookup in the binding table (a Python dict modelled as an association
list where the most recent entry for a key comes first). -/
def assocFind (k : ℕ) : List (ℕ × ℕ) → Option ℕ
  | [] => none
  | kv :: rest => if kv.1 = k then some kv.2 else assocFind k rest

/-- The tensor id `access`/`release` look up for a given access type
(`param.ps_data_id` for DATA, `param.ps_grad_id` for GRAD). -/
def tid_of (p : PSParam) (kind : AccessType) : ℕ :=
  match kind with
  | AccessType.DATA => p.ps_data_id
  | AccessType.GRAD => p.ps_grad_id

/-- The eviction target `prepare_device` uses: `cpu` when the target is
`cuda`, `cuda:0` otherwise. -/
def alternate : Device → Device
  | Device.cuda => Device.cpu
  | Device.cpu => Device.cuda

/-- `HybridPSClient.chunk_move(chunk_id, device)`: move the chunk to the
device when its current device differs. -/
def ClientState.chunk_move (s : ClientState) (cid : ℕ) (dev : Device) : ClientState :=
  { s with chunk_list := chunkListMove s.chunk_list cid dev }

/-- Fold `chunk_move` over a list of victim chunk ids (the loop at the end of
`prepare_device`). -/
def ClientState.move_all (s : ClientState) (ids : List ℕ) (dev : Device) : ClientState :=
  ids.foldl (fun acc idx => acc.chunk_move idx dev) s

/-- `HybridPSClient.prepare_device(target_device, need_size)`: raise when the
device's total capacity cannot hold the request; return unchanged when the
available memory already covers it; otherwise select victims via
`make_room` for the deficit — propagating its fatal capacity failure — and
move each victim to the alternate device. -/
def ClientState.prepare_device (s : ClientState) (mgr : HybridPSManagerModel)
    (target : Device) (need : ℚ) : Except PSError ClientState :=
  if mgr.max_mem target < need then
    Except.error PSError.capacityExceeded
  else
    let extra := need - mgr.available_mem target
    if extra ≤ 0 then
      Except.ok s
    else
      match make_room extra target s.chunk_list with
      | Except.error e => Except.error e
      | Except.ok moved_list => Except.ok (s.move_all moved_list (alternate target))

/-- Residency step of `HybridPSClient.access`: when the chunk's current device
differs from the param's compute device, `prepare_device` for the chunk's
capacity and then move the chunk over. -/
def access_step (s : ClientState) (mgr : HybridPSManagerModel) (p : PSParam)
    (chunk_id : ℕ) (ch : Chunk) : Except PSError ClientState :=
  if p.compute_device ≠ ch.device then
    (s.prepare_device mgr p.compute_device ch.capacity).map
      (fun s1 => s1.chunk_move chunk_id p.compute_device)
  else
    Except.ok s

/-- Tail of `HybridPSClient.access`: assert the data now lives on the compute
device, touch the chunk (stamped with the caller's clock `now`) and set the
tensor record's status to COMPUTE. -/
def access_finish (s1 : ClientState) (chunk_id tid : ℕ) (dev : Device) (now : ℕ) :
    Except PSError ClientState :=
  match s1.chunk_list.get? chunk_id with
  | none => Except.error PSError.keyError
  | some ch1 =>
    if ch1.device ≠ dev then
      Except.error PSError.assertionError
    else
      let cs2 := s1.chunk_list.set chunk_id (ch1.touch now)
      Except.ok { s1 with chunk_list := chunkListSetStatus cs2 chunk_id tid PSTensorStatus.COMPUTE }

/-- `HybridPSClient.access(param, access_type)`: reject non-ps params; look up
the bound chunk; ensure residency on the param's compute device
(`access_step`); then stamp and mark the record (`access_finish`). -/
def ClientState.access (s : ClientState) (mgr : HybridPSManagerModel) (p : PSParam)
    (kind : AccessType) (now : ℕ) : Except PSError ClientState :=
  if p.is_ps_param = false then
    Except.error PSError.invalidAccess
  else
    match assocFind (tid_of p kind) s.dict_tensor_id_chunk_id with
    | none => Except.error PSError.keyError
    | some chunk_id =>
      match s.chunk_list.get? chunk_id with
      | none => Except.error PSError.keyError
      | some ch =>
        match access_step s mgr p chunk_id ch with
        | Except.error e => Except.error e
        | Except.ok s1 => access_finish s1 chunk_id (tid_of p kind) p.compute_device now

/-- `HybridPSClient.release(param, access_type)`: set the tensor record's
status back to HOLD (a non-ps param has no `ps_data_id` attribute, so the
lookup itself faults; a missing dict entry is a `KeyError`). -/
def ClientState.release (s : ClientState) (p : PSParam) (kind : AccessType) :
    Except PSError ClientState :=
  if p.is_ps_param = false then
    Except.error PSError.invalidAccess
  else
    match assocFind (tid_of p kind) s.dict_tensor_id_chunk_id with
    | none => Except.error PSError.keyError
    | some chunk_id =>
      match s.chunk_list.get? chunk_id with
      | none => Except.error PSError.keyError
      | some ch =>
        Except.ok { s with chunk_list := s.chunk_list.set chunk_id (ch.set_status (tid_of p kind) PSTensorStatus.HOLD) }

/-- `HybridPSClient.new_tensor(shape, tensor_id)`: allocate `numel` elements
via `ChunkList.allocate` and register the tensor-id-to-chunk-id binding.
Returns the chunk id and the new state.  (The source also accepts a `None`
tensor id and then skips the registration; only registered tensors are
modelled.) -/
def ClientState.new_tensor (s : ClientState) (numel : ℚ) (tensor_id : ℕ) :
    ℕ × ClientState :=
  let res := chunkListAllocate s.default_chunk_size s.chunk_list numel tensor_id
  (res.1,
    { s with chunk_list := res.2
             dict_tensor_id_chunk_id := (tensor_id, res.1) :: s.dict_tensor_id_chunk_id })

/-! ### Metronome and PatrickStarManager (`src/patrickstar/manager/manager.py`) -/

/-- Modelled from the spec: the `Metronome` (`metronome.py` is not in the
snapshot) keeps a moment counter in `[0, total_moment)` once the iteration
length is known, together with the warmup flag. -/
structure Metronome where
  moment : ℕ
  total_moment : ℕ
  warmup : Bool
deriving DecidableEq, Repr

/-- Modelled from the spec: `next_moment()` — the index that will follow,
wrapping to 0 at iteration end. -/
def Metronome.next_moment (m : Metronome) : ℕ :=
  (m.moment + 1) % m.total_moment

/-- Modelled from the spec: `is_warmup()`. -/
def Metronome.is_warmup (m : Metronome) : Bool :=
  m.warmup

/-- Modelled from the spec: `tiktac()` advances the counter by one moment
(during warmup the iteration length is still being discovered, so the counter
just increments; afterwards it wraps at the iteration length). -/
def Metronome.tiktac (m : Metronome) : Metronome :=
  if m.warmup then
    { m with moment := m.moment + 1 }
  else
    { m with moment := (m.moment + 1) % m.total_moment }

/-- The externally observed memory samples consumed by one `tiktac` call:
`gpu_used` is `max(max_mem_usage_period(), get_sys_memory_used(gpu_device))`
and `cpu_used` is `get_sys_memory_used(cpu_device)` — both are measurements
taken outside this core. -/
structure TiktacObs where
  gpu_used : ℚ
  cpu_used : ℚ
deriving DecidableEq, Repr

/-- State of `PatrickStarManager` (`src/patrickstar/manager/manager.py`).
Budgets and ratios are fixed at construction; the six lists are the warmup
traces; `world_size` is `get_world_size()`. -/
structure PatrickStarManager where
  overall_gpu_mem : ℚ
  overall_cpu_mem : ℚ
  gpu_chunk_used_mem : ℚ
  cpu_chunk_used_mem : ℚ
  gpu_used_list : List ℚ
  gpu_chunk_used_list : List ℚ
  gpu_sys_used_list : List ℚ
  cpu_used_list : List ℚ
  cpu_chunk_used_list : List ℚ
  cpu_sys_used_list : List ℚ
  start_training : Bool
  training_stage : TrainingStage
  always_warmup : Bool
  warmup_gpu_chunk_mem_frac : ℚ
  default_chunk_size : ℚ
  world_size : ℕ
deriving DecidableEq, Repr

/-- `PatrickStarManager.available_chunk_mem(metronome, device_type)`.
`none` models the fall-through where the Python function returns no numeric
value (an out-of-range trace index or an unmatched stage). -/
def PatrickStarManager.available_chunk_mem (m : PatrickStarManager) (met : Metronome)
    (device_type : Device) : Option ℚ :=
  match device_type with
  | Device.cpu =>
      if met.is_warmup || !m.start_training then
        some m.overall_cpu_mem
      else
        some m.overall_cpu_mem
  | Device.cuda =>
      if m.always_warmup || met.is_warmup || !m.start_training then
        if m.training_stage = TrainingStage.ADAM then
          some (m.overall_gpu_mem - 4 * m.default_chunk_size * 4)
        else
          some (m.overall_gpu_mem * m.warmup_gpu_chunk_mem_frac)
      else
        match m.training_stage with
        | TrainingStage.ADAM =>
            some (m.overall_gpu_mem - 4 * m.default_chunk_size * 4)
        | TrainingStage.FWD =>
            match m.gpu_sys_used_list.get? met.next_moment,
                  m.gpu_sys_used_list.get? met.moment with
            | some next_used, some cur_used =>
                some (min (m.overall_gpu_mem - next_used) (m.overall_gpu_mem - cur_used)
                  - (m.world_size : ℚ) * 2 * m.default_chunk_size)
            | _, _ => none
        | TrainingStage.BWD =>
            match m.gpu_sys_used_list.get? met.next_moment,
                  m.gpu_sys_used_list.get? met.moment with
            | some next_used, some cur_used =>
                some (min (m.overall_gpu_mem - next_used) (m.overall_gpu_mem - cur_used)
                  - (m.world_size : ℚ) * 2 * m.default_chunk_size)
            | _, _ => none
        | TrainingStage.UNSTART => none

/-- Warmup body of `tiktac`: append the observed totals, the chunk totals and
the derived non-chunk samples to the per-moment traces of both devices. -/
def PatrickStarManager.record_warmup (m : PatrickStarManager) (obs : TiktacObs) :
    PatrickStarManager :=
  { m with
    gpu_used_list := m.gpu_used_list ++ [obs.gpu_used]
    gpu_chunk_used_list := m.gpu_chunk_used_list ++ [m.gpu_chunk_used_mem]
    gpu_sys_used_list := m.gpu_sys_used_list ++ [obs.gpu_used - m.gpu_chunk_used_mem]
    cpu_used_list := m.cpu_used_list ++ [obs.cpu_used]
    cpu_chunk_used_list := m.cpu_chunk_used_list ++ [m.cpu_chunk_used_mem]
    cpu_sys_used_list := m.cpu_sys_used_list ++ [obs.cpu_used - m.cpu_chunk_used_mem] }

/-- `PatrickStarManager.tiktac(client)`.  The client contributes its metronome
and its chunk list (for `get_chunk_memory_used` on the gpu device); `obs`
carries the live memory measurements.  The result is `none` when the Python
code faults (failed warmup assertion or out-of-range trace index); otherwise
it is the new manager state, the advanced metronome, and the size passed to
the side-effecting `client.chunk_list.make_room(·, gpu_device)` call when the
look-ahead triggers one (`none` = no eviction requested). -/
def PatrickStarManager.tiktac (m : PatrickStarManager) (met : Metronome)
    (chunks : List Chunk) (obs : TiktacObs) :
    Option (PatrickStarManager × Metronome × Option ℚ) :=
  if met.is_warmup then
    if (m.record_warmup obs).gpu_sys_used_list.length - 1 = met.moment then
      some (m.record_warmup obs, met.tiktac, none)
    else
      none
  else
    match m.gpu_sys_used_list.get? met.next_moment with
    | none => none
    | some next_used =>
        let gpu_next_mom_ava_chunk_mem := m.overall_gpu_mem - next_used
        let gpu_cur_mom_used_chunk_mem := get_chunk_memory_used chunks Device.cuda
        let room_request :=
          if gpu_next_mom_ava_chunk_mem < gpu_cur_mom_used_chunk_mem then
            some (gpu_cur_mom_used_chunk_mem - gpu_next_mom_ava_chunk_mem)
          else
            none
        some (m, met.tiktac, room_request)

/-- Pure chunk-list form of `move_all`. -/
def moveAllList (cs : List Chunk) (ids : List ℕ) (dev : Device) : List Chunk :=
  ids.foldl (fun acc i => chunkListMove acc i dev) cs

/-- Status of a registered tensor as observable through the client: follow the
binding table to the owning chunk and read the record's status there. -/
def ClientState.tensor_status (s : ClientState) (tid : ℕ) : Option PSTensorStatus :=
  match assocFind tid s.dict_tensor_id_chunk_id with
  | none => none
  | some cid =>
    match s.chunk_list.get? cid with
    | none => none
    | some c => c.status_of tid

/-! ### Concrete example states (used to instantiate the theorems) -/

/-- A 64-element chunk on cpu holding two 32-element HOLD tensors (ids 0, 1). -/
def chunkA : Chunk where
  capacity := 64
  device := Device.cpu
  touch_time := 0
  tensor_info_list := [⟨0, 32, PSTensorStatus.HOLD⟩, ⟨1, 32, PSTensorStatus.HOLD⟩]

/-- A 32-element chunk on the accelerator holding one HOLD tensor (id 2). -/
def chunkB : Chunk where
  capacity := 32
  device := Device.cuda
  touch_time := 1
  tensor_info_list := [⟨2, 32, PSTensorStatus.HOLD⟩]

/-- A 90-element accelerator-resident chunk with no tensors. -/
def chunkHot : Chunk where
  capacity := 90
  device := Device.cuda
  touch_time := 5
  tensor_info_list := []

/-- A small client: chunk 0 = `chunkA` (cpu), chunk 1 = `chunkB` (cuda). -/
def clientEx : ClientState where
  chunk_list := [chunkA, chunkB]
  default_chunk_size := 64
  dict_tensor_id_chunk_id := [(0, 0), (1, 0), (2, 1)]

/-- A cpu-resident chunk pinned by an in-flight computation (COMPUTE tensor). -/
def chunkPinned : Chunk where
  capacity := 64
  device := Device.cpu
  touch_time := 0
  tensor_info_list := [⟨0, 32, PSTensorStatus.COMPUTE⟩]

/-- A client whose only cpu-resident chunk is COMPUTE-pinned: maximal eviction
on cpu frees nothing. -/
def clientPinned : ClientState where
  chunk_list := [chunkPinned]
  default_chunk_size := 64
  dict_tensor_id_chunk_id := [(0, 0)]

/-- A registered param bound to tensors 0 (data) and 1 (grad), computing on cpu. -/
def paramEx : PSParam where
  is_ps_param := true
  ps_data_id := 0
  ps_grad_id := 1
  compute_device := Device.cpu

/-- A registered param bound to tensor 2, computing on cpu (its chunk is on cuda). -/
def paramFar : PSParam where
  is_ps_param := true
  ps_data_id := 2
  ps_grad_id := 2
  compute_device := Device.cpu

/-- A torch parameter that was never converted to a ps param. -/
def paramRaw : PSParam where
  is_ps_param := false
  ps_data_id := 9
  ps_grad_id := 9
  compute_device := Device.cpu

/-- Budgets: plenty of room everywhere. -/
def mgrBig : HybridPSManagerModel where
  max_mem := fun _ => 1000
  available_mem := fun _ => 1000

/-- Budgets: large capacity but only 10 elements currently available. -/
def mgrTight : HybridPSManagerModel where
  max_mem := fun _ => 1000
  available_mem := fun _ => 10

/-- Post-warmup metronome at moment 1 of a 3-moment iteration. -/
def metPost : Metronome where
  moment := 1
  total_moment := 3
  warmup := false

/-- Warmup metronome at moment 2. -/
def metWarm : Metronome where
  moment := 2
  total_moment := 3
  warmup := true

/-- Scenario C manager: accelerator budget 100, warmup trace [10, 20, 15],
FWD stage after warmup, world size 1, default chunk size 2. -/
def psmFwd : PatrickStarManager where
  overall_gpu_mem := 100
  overall_cpu_mem := 200
  gpu_chunk_used_mem := 0
  cpu_chunk_used_mem := 0
  gpu_used_list := [30, 20, 15]
  gpu_chunk_used_list := [20, 0, 0]
  gpu_sys_used_list := [10, 20, 15]
  cpu_used_list := [0, 0, 0]
  cpu_chunk_used_list := [0, 0, 0]
  cpu_sys_used_list := [0, 0, 0]
  start_training := true
  training_stage := TrainingStage.FWD
  always_warmup := false
  warmup_gpu_chunk_mem_frac := 1/5
  default_chunk_size := 2
  world_size := 1

/-- A manager still in warmup (two moments recorded so far), FWD stage. -/
def psmWarm : PatrickStarManager where
  overall_gpu_mem := 100
  overall_cpu_mem := 200
  gpu_chunk_used_mem := 3
  cpu_chunk_used_mem := 4
  gpu_used_list := [10, 20]
  gpu_chunk_used_list := [3, 3]
  gpu_sys_used_list := [7, 17]
  cpu_used_list := [10, 10]
  cpu_chunk_used_list := [4, 4]
  cpu_sys_used_list := [6, 6]
  start_training := true
  training_stage := TrainingStage.FWD
  always_warmup := false
  warmup_gpu_chunk_mem_frac := 1/5
  default_chunk_size := 2
  world_size := 1

/-- Like `psmWarm` but in the ADAM stage (reachable while the warmup iteration
runs its optimizer step). -/
def psmWarmAdam : PatrickStarManager where
  overall_gpu_mem := 100
  overall_cpu_mem := 200
  gpu_chunk_used_mem := 3
  cpu_chunk_used_mem := 4
  gpu_used_list := [10, 20]
  gpu_chunk_used_list := [3, 3]
  gpu_sys_used_list := [7, 17]
  cpu_used_list := [10, 10]
  cpu_chunk_used_list := [4, 4]
  cpu_sys_used_list := [6, 6]
  start_training := true
  training_stage := TrainingStage.ADAM
  always_warmup := false
  warmup_gpu_chunk_mem_frac := 1/5
  default_chunk_size := 2
  world_size := 1

/-- A pair of live memory observations. -/
def obsEx : TiktacObs where
  gpu_used := 50
  cpu_used := 60

/-- `clientEx` after `access(paramEx, DATA)` at clock 7: chunk 0 touched and
tensor 0 marked COMPUTE. -/
def clientExAfter : ClientState where
  chunk_list :=
    [{ capacity := 64
       device := Device.cpu
       touch_time := 7
       tensor_info_list := [⟨0, 32, PSTensorStatus.COMPUTE⟩, ⟨1, 32, PSTensorStatus.HOLD⟩] },
     chunkB]
  default_chunk_size := 64
  dict_tensor_id_chunk_id := [(0, 0), (1, 0), (2, 1)]

/-! ### Supporting lemmas -/

theorem chunkListMove_get?_ne (cs : List Chunk) (cid : ℕ) (dev : Device) {j : ℕ}
    (h : j ≠ cid) : (chunkListMove cs cid dev).get? j = cs.get? j := by
  unfold chunkListMove
  cases hc : cs.get? cid with
  | none => rfl
  | some c =>
    by_cases hd : c.device = dev
    · simp [hd]
    · simp only [hd, ne_eq, not_false_iff, if_true]
      exact List.get?_set_ne _ _ (Ne.symm h)

theorem chunkListMove_get?_self (cs : List Chunk) (cid : ℕ) (dev : Device) :
    (chunkListMove cs cid dev).get? cid =
      (cs.get? cid).map (fun c => { c with device := dev }) := by
  unfold chunkListMove
  cases hc : cs.get? cid with
  | none =>
    rw [hc]
    rfl
  | some c =>
    by_cases hd : c.device = dev
    · simp only [hd, ne_eq, not_true_eq_false, if_false, hc, Option.map_some]
      cases c
      simp_all
    · simp only [hd, ne_eq, not_false_iff, if_true]
      have hlt : cid < cs.length := by
        by_contra hge
        rw [not_lt] at hge
        rw [List.get?_eq_none.mpr hge] at hc
        exact Option.noConfusion hc
      rw [List.get?_set_eq_of_lt _ hlt]
      rfl

theorem chunkListMove_length (cs : List Chunk) (cid : ℕ) (dev : Device) :
    (chunkListMove cs cid dev).length = cs.length := by
  unfold chunkListMove
  cases cs.get? cid with
  | none => rfl
  | some c =>
    by_cases hd : c.device = dev
    · simp [hd]
    · simp [hd, List.length_set]

theorem moveAllList_nil (cs : List Chunk) (dev : Device) :
    moveAllList cs [] dev = cs := rfl

theorem moveAllList_cons (cs : List Chunk) (i : ℕ) (ids : List ℕ) (dev : Device) :
    moveAllList cs (i :: ids) dev = moveAllList (chunkListMove cs i dev) ids dev := rfl

theorem moveAllList_get?_not_mem {ids : List ℕ} (dev : Device) :
    ∀ (cs : List Chunk) {j : ℕ}, j ∉ ids →
      (moveAllList cs ids dev).get? j = cs.get? j := by
  induction ids with
  | nil => intro cs j _; rfl
  | cons i rest ih =>
    intro cs j hj
    rw [moveAllList_cons, ih _ (fun hm => hj (List.mem_cons_of_mem _ hm)),
      chunkListMove_get?_ne _ _ _ (fun he => hj (by rw [he]; exact List.mem_cons_self _ _))]

/-- Every chunk slot after a sequence of guarded moves is either untouched or
the original chunk relocated to the move target. -/
theorem moveAllList_get?_shape {ids : List ℕ} (dev : Device) :
    ∀ (cs : List Chunk) (j : ℕ),
      (moveAllList cs ids dev).get? j = cs.get? j ∨
      (moveAllList cs ids dev).get? j =
        (cs.get? j).map (fun c => { c with device := dev }) := by
  induction ids with
  | nil => intro cs j; exact Or.inl rfl
  | cons i rest ih =>
    intro cs j
    rw [moveAllList_cons]
    rcases ih (chunkListMove cs i dev) j with h | h
    · by_cases hj : j = i
      · subst hj
        rw [h, chunkListMove_get?_self]
        exact Or.inr rfl
      · rw [h, chunkListMove_get?_ne _ _ _ hj]
        exact Or.inl rfl
    · by_cases hj : j = i
      · subst hj
        rw [h, chunkListMove_get?_self]
        right
        cases cs.get? j with
        | none => rfl
        | some c => rfl
      · rw [h, chunkListMove_get?_ne _ _ _ hj]
        exact Or.inr rfl

theorem moveAllList_device_of_mem {ids : List ℕ} (dev : Device) :
    ∀ (cs : List Chunk) {idx : ℕ}, idx ∈ ids →
      ∀ c', (moveAllList cs ids dev).get? idx = some c' → c'.device = dev := by
  induction ids with
  | nil => intro cs idx h; exact absurd h (List.not_mem_nil _)
  | cons i rest ih =>
    intro cs idx hmem c' hget
    by_cases hr : idx ∈ rest
    · exact ih _ hr c' hget
    · have hidx : idx = i := by
        rcases List.mem_cons.mp hmem with h | h
        · exact h
        · exact absurd h hr
      subst hidx
      rw [moveAllList_cons, moveAllList_get?_not_mem dev _ hr,
        chunkListMove_get?_self] at hget
      cases hc : cs.get? idx with
      | none => rw [hc] at hget; exact Option.noConfusion hget
      | some c =>
        rw [hc] at hget
        cases hget
        rfl

theorem move_all_eq (s : ClientState) (ids : List ℕ) (dev : Device) :
    s.move_all ids dev = { s with chunk_list := moveAllList s.chunk_list ids dev } := by
  induction ids generalizing s with
  | nil => rfl
  | cons i rest ih =>
    show (s.chunk_move i dev).move_all rest dev = _
    rw [ih]
    rfl

theorem move_all_dict (s : ClientState) (ids : List ℕ) (dev : Device) :
    (s.move_all ids dev).dict_tensor_id_chunk_id = s.dict_tensor_id_chunk_id := by
  rw [move_all_eq]

/-- List-level core of `set_status`: after the update, the first record with
the given tensor id carries the new status. -/
theorem find?_map_set_status (tid : ℕ) (st : PSTensorStatus) :
    ∀ (l : List TensorInfo), l.any (fun ti => decide (ti.tensor_id = tid)) = true →
      ((l.map (fun ti => if ti.tensor_id = tid then { ti with status := st } else ti)).find?
        (fun ti => decide (ti.tensor_id = tid))).map TensorInfo.status = some st := by
  intro l
  induction l with
  | nil => intro h; exact absurd h (by simp)
  | cons a rest ih =>
    intro h
    by_cases ha : a.tensor_id = tid
    · simp [ha, List.find?_cons_of_pos]
    · have hrest : rest.any (fun ti => decide (ti.tensor_id = tid)) = true := by
        simpa [ha] using h
      simpa [ha, List.find?_cons_of_neg] using ih hrest

theorem status_of_set_status (c : Chunk) (tid : ℕ) (st : PSTensorStatus)
    (h : c.has_tensor tid = true) : (c.set_status tid st).status_of tid = some st := by
  exact find?_map_set_status tid st c.tensor_info_list h

theorem set_status_device (c : Chunk) (tid : ℕ) (st : PSTensorStatus) :
    (c.set_status tid st).device = c.device := rfl

theorem set_status_idem (c : Chunk) (tid : ℕ) (st : PSTensorStatus) :
    (c.set_status tid st).set_status tid st = c.set_status tid st := by
  unfold Chunk.set_status
  simp only [List.map_map]
  congr 1
  apply List.map_congr_left
  intro ti _
  by_cases h : ti.tensor_id = tid
  · simp [Function.comp, h]
  · simp [Function.comp, h]

theorem get?_some_lt {cs : List Chunk} {j : ℕ} {c : Chunk}
    (h : cs.get? j = some c) : j < cs.length := by
  by_contra hge
  rw [not_lt] at hge
  rw [List.get?_eq_none.mpr hge] at h
  exact Option.noConfusion h

theorem tensor_status_eq (s : ClientState) (tid cid : ℕ) (c : Chunk)
    (h1 : assocFind tid s.dict_tensor_id_chunk_id = some cid)
    (h2 : s.chunk_list.get? cid = some c) :
    s.tensor_status tid = c.status_of tid := by
  unfold ClientState.tensor_status
  simp only [h1, h2]

/-- `make_room` fails (fatally, with the capacity error) exactly when not even
maximal eviction — all non-COMPUTE resident chunks together — covers the
request. -/
theorem make_room_error_iff (need : ℚ) (dev : Device) (cs : List Chunk) (e : PSError) :
    make_room need dev cs = Except.error e ↔
      evictable_mem dev cs < need ∧ e = PSError.capacityExceeded := by
  unfold make_room
  by_cases hev : evictable_mem dev cs < need
  · rw [if_pos hev]
    constructor
    · intro h
      cases h
      exact ⟨hev, rfl⟩
    · intro h
      rw [h.2]
  · rw [if_neg hev]
    constructor
    · intro h
      exact Except.noConfusion h
    · intro h
      exact absurd h.1 hev

/-- Every successful `prepare_device` run is a fold of guarded chunk moves
towards the alternate device (possibly the empty fold). -/
theorem prepare_device_ok_shape {s s' : ClientState} {mgr : HybridPSManagerModel}
    {target : Device} {need : ℚ}
    (h : s.prepare_device mgr target need = Except.ok s') :
    ∃ ids, s' = s.move_all ids (alternate target) := by
  unfold ClientState.prepare_device at h
  by_cases hm : mgr.max_mem target < need
  · rw [if_pos hm] at h
    exact Except.noConfusion h
  · rw [if_neg hm] at h
    by_cases he : need - mgr.available_mem target ≤ 0
    · rw [if_pos he] at h
      cases h
      exact ⟨[], rfl⟩
    · rw [if_neg he] at h
      cases hmr : make_room (need - mgr.available_mem target) target s.chunk_list with
      | error e =>
        rw [hmr] at h
        exact Except.noConfusion h
      | ok ids =>
        simp only [hmr] at h
        cases h
        exact ⟨ids, rfl⟩

/-- A successful `access_step` preserves the binding table and leaves the
target chunk resident on the compute device with its tensor records intact. -/
theorem access_step_ok_props {s s1 : ClientState} {mgr : HybridPSManagerModel}
    {p : PSParam} {cid : ℕ} {ch : Chunk}
    (hch : s.chunk_list.get? cid = some ch)
    (h : access_step s mgr p cid ch = Except.ok s1) :
    s1.dict_tensor_id_chunk_id = s.dict_tensor_id_chunk_id ∧
    ∃ ch1, s1.chunk_list.get? cid = some ch1 ∧
      ch1.tensor_info_list = ch.tensor_info_list ∧
      ch1.device = p.compute_device := by
  unfold access_step at h
  by_cases hdev : p.compute_device = ch.device
  · rw [if_neg (by simp [hdev])] at h
    cases h
    exact ⟨rfl, ch, hch, rfl, hdev.symm ▸ rfl⟩
  · rw [if_pos (by simp [hdev])] at h
    cases hp : s.prepare_device mgr p.compute_device ch.capacity with
    | error e =>
      rw [hp] at h
      exact Except.noConfusion h
    | ok s0 =>
      rw [hp] at h
      cases h
      obtain ⟨ids, rfl⟩ := prepare_device_ok_shape hp
      refine ⟨move_all_dict s ids (alternate p.compute_device), ?_⟩
      rw [move_all_eq]
      show ∃ ch1,
        (chunkListMove (moveAllList s.chunk_list ids (alternate p.compute_device)) cid
          p.compute_device).get? cid = some ch1 ∧
        ch1.tensor_info_list = ch.tensor_info_list ∧ ch1.device = p.compute_device
      rw [chunkListMove_get?_self]
      rcases @moveAllList_get?_shape ids (alternate p.compute_device) s.chunk_list cid with
        hsh | hsh <;>
        rw [hsh, hch] <;> exact ⟨_, rfl, rfl, rfl⟩

/-- A successful `access_finish` stamps the chunk's touch time, marks the
tensor COMPUTE, and changes nothing else observable here. -/
theorem access_finish_props {s1 : ClientState} {cid tid : ℕ} {ch1 : Chunk}
    {dev : Device} {now : ℕ}
    (hch1 : s1.chunk_list.get? cid = some ch1)
    (hdev : ch1.device = dev) :
    ∃ s2, access_finish s1 cid tid dev now = Except.ok s2 ∧
      s2.dict_tensor_id_chunk_id = s1.dict_tensor_id_chunk_id ∧
      s2.chunk_list =
        (s1.chunk_list.set cid (ch1.touch now)).set cid
          ((ch1.touch now).set_status tid PSTensorStatus.COMPUTE) := by
  have hlt : cid < s1.chunk_list.length := get?_some_lt hch1
  have hlt2 : cid < (s1.chunk_list.set cid (ch1.touch now)).length := by
    rw [List.length_set]
    exact hlt
  unfold access_finish
  simp only [hch1]
  rw [if_neg (by simp [hdev])]
  refine ⟨_, rfl, rfl, ?_⟩
  show chunkListSetStatus (s1.chunk_list.set cid (ch1.touch now)) cid tid
    PSTensorStatus.COMPUTE = _
  unfold chunkListSetStatus
  rw [List.get?_set_eq_of_lt _ hlt]

/-! ### Claim theorems -/

/-- C1: for every `prepare_device(target_device, need_size)` call whose size
fits the device's total capacity — if the available memory already covers the
request, the call returns with no victim selection and no chunk movement;
otherwise it asks `make_room` for exactly `need_size` minus the available
memory, moves every victim chunk returned by `make_room` to the alternate
device (cpu for a cuda target, cuda for a cpu target), and propagates
`make_room`'s fatal capacity failure when eviction cannot cover the deficit. -/
theorem prepare_device_spec (mgr : HybridPSManagerModel) (s : ClientState)
    (target : Device) (need : ℚ) (hcap : need ≤ mgr.max_mem target) :
    (need ≤ mgr.available_mem target →
      s.prepare_device mgr target need = Except.ok s) ∧
    (mgr.available_mem target < need →
      (∀ ids, make_room (need - mgr.available_mem target) target s.chunk_list =
          Except.ok ids →
        s.prepare_device mgr target need =
          Except.ok (s.move_all ids (alternate target)) ∧
        ∀ idx ∈ ids, ∀ c,
          (s.move_all ids (alternate target)).chunk_list.get? idx = some c →
          c.device = alternate target) ∧
      (∀ e, make_room (need - mgr.available_mem target) target s.chunk_list =
          Except.error e →
        s.prepare_device mgr target need = Except.error e)) := by
  have hm : ¬ mgr.max_mem target < need := not_lt.mpr hcap
  constructor
  · intro hav
    unfold ClientState.prepare_device
    rw [if_neg hm, if_pos (sub_nonpos.mpr hav)]
  · intro hav
    refine ⟨?_, ?_⟩
    · intro ids hmr
      refine ⟨?_, ?_⟩
      · unfold ClientState.prepare_device
        rw [if_neg hm, if_neg (not_le.mpr (sub_pos.mpr hav))]
        simp only [hmr]
      · intro idx hmem c hc
        rw [move_all_eq] at hc
        exact moveAllList_device_of_mem _ _ hmem c hc
    · intro e hmr
      unfold ClientState.prepare_device
      rw [if_neg hm, if_neg (not_le.mpr (sub_pos.mpr hav))]
      simp only [hmr]

/-- C1 witness: capacity 1000, available 10, request 50 on cpu — `make_room`
returns victim chunk 0 for the 40-element deficit and it is moved to cuda. -/
theorem prepare_device_spec_witness :
    clientEx.prepare_device mgrTight Device.cpu 50 =
      Except.ok (clientEx.move_all [0] (alternate Device.cpu)) ∧
    (50 : ℚ) ≤ mgrTight.max_mem Device.cpu ∧
    mgrTight.available_mem Device.cpu < 50 := by
  have h40 : (50 : ℚ) - mgrTight.available_mem Device.cpu = 40 := by
    norm_num [mgrTight]
  have hevic : ¬ evictable_mem Device.cpu clientEx.chunk_list < 40 := by
    have hfil : clientEx.chunk_list.filter
        (fun c => decide (c.device = Device.cpu) &&
          decide (c.get_status ≠ PSChunkStatus.COMPUTE)) = [chunkA] := rfl
    unfold evictable_mem
    rw [hfil]
    norm_num [chunkA]
  have hmr : make_room (50 - mgrTight.available_mem Device.cpu) Device.cpu
      clientEx.chunk_list = Except.ok [0] := by
    rw [h40]
    unfold make_room
    rw [if_neg hevic]
    rfl
  exact ⟨(((prepare_device_spec mgrTight clientEx Device.cpu 50
      (by norm_num [mgrTight])).2 (by norm_num [mgrTight])).1 [0] hmr).1,
    by norm_num [mgrTight], by norm_num [mgrTight]⟩

/-- On the COMPUTE-pinned client no cpu-resident chunk is evictable. -/
theorem clientPinned_evictable :
    evictable_mem Device.cpu clientPinned.chunk_list = 0 := by
  have hfil : clientPinned.chunk_list.filter
      (fun c => decide (c.device = Device.cpu) &&
        decide (c.get_status ≠ PSChunkStatus.COMPUTE)) = [] := rfl
  unfold evictable_mem
  rw [hfil]
  rfl

/-- C2 counterexample: with total capacity 1000, available 10 and the only
cpu-resident chunk COMPUTE-pinned, `prepare_device(cpu, 50)` raises the fatal
capacity error although 50 does not exceed the capacity — refuting "raises
exactly when need_size exceeds the device's total configured capacity". -/
theorem prepare_device_capacity_error_cex :
    clientPinned.prepare_device mgrTight Device.cpu 50 =
      Except.error PSError.capacityExceeded ∧
    ¬ mgrTight.max_mem Device.cpu < 50 := by
  constructor
  · unfold ClientState.prepare_device
    rw [if_neg (by norm_num [mgrTight]), if_neg (by norm_num [mgrTight])]
    unfold make_room
    rw [if_pos (by rw [clientPinned_evictable]; norm_num [mgrTight])]
  · norm_num [mgrTight]

/-- C2 (amended): `prepare_device` raises exactly when the requested size
exceeds the device's total configured capacity (the initial check) or when the
deficit cannot be covered even by maximal eviction of the non-COMPUTE chunks
resident on the target device; in both cases the error is the capacity error
and no chunk has been moved — no successor state escapes an erroring call. -/
theorem prepare_device_error_characterization (mgr : HybridPSManagerModel)
    (s : ClientState) (target : Device) (need : ℚ) :
    (∀ e, s.prepare_device mgr target need = Except.error e →
      e = PSError.capacityExceeded) ∧
    (s.prepare_device mgr target need = Except.error PSError.capacityExceeded ↔
      mgr.max_mem target < need ∨
      (mgr.available_mem target < need ∧
        evictable_mem target s.chunk_list < need - mgr.available_mem target)) := by
  constructor
  · intro e he
    unfold ClientState.prepare_device at he
    by_cases hm : mgr.max_mem target < need
    · rw [if_pos hm] at he
      cases he
      rfl
    · rw [if_neg hm] at he
      by_cases hex : need - mgr.available_mem target ≤ 0
      · rw [if_pos hex] at he
        exact Except.noConfusion he
      · rw [if_neg hex] at he
        cases hmr : make_room (need - mgr.available_mem target) target s.chunk_list with
        | error e2 =>
          rw [hmr] at he
          cases he
          exact ((make_room_error_iff _ _ _ _).mp hmr).2
        | ok ids =>
          rw [hmr] at he
          exact Except.noConfusion he
  · unfold ClientState.prepare_device
    by_cases hm : mgr.max_mem target < need
    · rw [if_pos hm]
      exact ⟨fun _ => Or.inl hm, fun _ => rfl⟩
    · rw [if_neg hm]
      by_cases hex : need - mgr.available_mem target ≤ 0
      · rw [if_pos hex]
        constructor
        · intro h
          exact Except.noConfusion h
        · intro h
          rcases h with h | h
          · exact absurd h hm
          · exact absurd (sub_pos.mpr h.1) (not_lt.mpr hex)
      · rw [if_neg hex]
        have hav : mgr.available_mem target < need := sub_pos.mp (not_le.mp hex)
        cases hmr : make_room (need - mgr.available_mem target) target s.chunk_list with
        | error e2 =>
          have he2 : e2 = PSError.capacityExceeded :=
            ((make_room_error_iff _ _ _ _).mp hmr).2
          subst he2
          constructor
          · intro _
            exact Or.inr ⟨hav, ((make_room_error_iff _ _ _ _).mp hmr).1⟩
          · intro _
            rfl
        | ok ids =>
          constructor
          · intro h
            exact Except.noConfusion h
          · intro h
            rcases h with h | h
            · exact absurd h hm
            · have : make_room (need - mgr.available_mem target) target s.chunk_list =
                  Except.error PSError.capacityExceeded :=
                (make_room_error_iff _ _ _ _).mpr ⟨h.2, rfl⟩
              rw [hmr] at this
              exact Except.noConfusion this

/-- C2 (amended) witness: both raise conditions exercised concretely — a 2000
request against a 1000 budget, and the COMPUTE-pinned client of the
counterexample where eviction frees nothing. -/
theorem prepare_device_error_characterization_witness :
    clientEx.prepare_device mgrTight Device.cuda 2000 =
      Except.error PSError.capacityExceeded ∧
    clientPinned.prepare_device mgrTight Device.cpu 50 =
      Except.error PSError.capacityExceeded :=
  ⟨(prepare_device_error_characterization mgrTight clientEx Device.cuda 2000).2.mpr
      (Or.inl (by norm_num [mgrTight])),
    (prepare_device_error_characterization mgrTight clientPinned Device.cpu 50).2.mpr
      (Or.inr ⟨by norm_num [mgrTight],
        by rw [clientPinned_evictable]; norm_num [mgrTight]⟩)⟩

/-- C10: `access` on a handle with no registered record (not a ps param)
raises the invalid-access error; no state is produced, so no chunk or status
state is mutated. -/
theorem access_unregistered (mgr : HybridPSManagerModel) (s : ClientState)
    (p : PSParam) (kind : AccessType) (now : ℕ) (h : p.is_ps_param = false) :
    s.access mgr p kind now = Except.error PSError.invalidAccess := by
  unfold ClientState.access
  rw [if_pos h]

/-- C10 witness: accessing the never-registered `paramRaw` errors out. -/
theorem access_unregistered_witness :
    clientEx.access mgrBig paramRaw AccessType.DATA 3 =
      Except.error PSError.invalidAccess :=
  access_unregistered mgrBig clientEx paramRaw AccessType.DATA 3 rfl

/-- C3: after warmup, `tiktac` computes the next moment's accelerator headroom
as the total budget minus the recorded non-chunk usage at the next moment,
requests `make_room` exactly when the resident accelerator chunk memory
exceeds that headroom (for the excess amount, and for nothing otherwise), and
— warmup or not — finishes by advancing the metronome by one moment. -/
theorem tiktac_lookahead (m : PatrickStarManager) (met : Metronome)
    (chunks : List Chunk) (obs : TiktacObs) :
    (∀ next_used : ℚ, met.is_warmup = false →
      m.gpu_sys_used_list.get? met.next_moment = some next_used →
      m.tiktac met chunks obs =
        some (m, met.tiktac,
          if m.overall_gpu_mem - next_used < get_chunk_memory_used chunks Device.cuda then
            some (get_chunk_memory_used chunks Device.cuda - (m.overall_gpu_mem - next_used))
          else none) ∧
      (met.tiktac).moment = met.next_moment) ∧
    (∀ r, m.tiktac met chunks obs = some r → r.2.1 = met.tiktac) := by
  constructor
  · intro next_used hw hnext
    constructor
    · unfold PatrickStarManager.tiktac
      rw [if_neg (by simp [hw]), hnext]
    · unfold Metronome.tiktac Metronome.next_moment
      unfold Metronome.is_warmup at hw
      rw [if_neg (by simp [hw])]
  · intro r hr
    unfold PatrickStarManager.tiktac at hr
    by_cases hw : met.is_warmup = true
    · rw [if_pos hw] at hr
      by_cases hl :
          (m.record_warmup obs).gpu_sys_used_list.length - 1 = met.moment
      · rw [if_pos hl] at hr
        cases hr
        rfl
      · rw [if_neg hl] at hr
        exact Option.noConfusion hr
    · rw [if_neg hw] at hr
      cases hg : m.gpu_sys_used_list.get? met.next_moment with
      | none =>
        rw [hg] at hr
        exact Option.noConfusion hr
      | some next_used =>
        rw [hg] at hr
        cases hr
        rfl

/-- C3 witness: with trace [10, 20, 15] at moment 1 (next = 2), headroom is
100 − 15 = 85; a 90-element resident chunk triggers a 5-element request. -/
theorem tiktac_lookahead_witness :
    psmFwd.tiktac metPost [chunkHot] obsEx =
      some (psmFwd, metPost.tiktac,
        if psmFwd.overall_gpu_mem - 15 < get_chunk_memory_used [chunkHot] Device.cuda then
          some (get_chunk_memory_used [chunkHot] Device.cuda - (psmFwd.overall_gpu_mem - 15))
        else none) :=
  ((tiktac_lookahead psmFwd metPost [chunkHot] obsEx).1 15 rfl rfl).1

/-- C4: once warmup is over (including the always-warmup override being off),
training has started and the stage is FWD or BWD, the accelerator's
`available_chunk_mem` is the minimum of the budget minus the recorded
non-chunk usage at the current and at the next moment, minus a margin of
`world_size * 2 * default_chunk_size`. -/
theorem available_chunk_mem_fwd_bwd (m : PatrickStarManager) (met : Metronome)
    (cur_used next_used : ℚ)
    (haw : m.always_warmup = false) (hw : met.is_warmup = false)
    (hst : m.start_training = true)
    (hstage : m.training_stage = TrainingStage.FWD ∨
      m.training_stage = TrainingStage.BWD)
    (hcur : m.gpu_sys_used_list.get? met.moment = some cur_used)
    (hnext : m.gpu_sys_used_list.get? met.next_moment = some next_used) :
    m.available_chunk_mem met Device.cuda =
      some (min (m.overall_gpu_mem - cur_used) (m.overall_gpu_mem - next_used)
        - (m.world_size : ℚ) * 2 * m.default_chunk_size) := by
  rw [List.get?_eq_getElem?] at hcur hnext
  rcases hstage with h | h <;>
    simp [PatrickStarManager.available_chunk_mem, haw, hw, hst, h, hcur, hnext,
      min_comm]

/-- C4 witness (Scenario C): trace [10, 20, 15], budget 100, moment 1 in FWD:
min(100−20, 100−15) − 1·2·2 = 76. -/
theorem available_chunk_mem_fwd_bwd_witness :
    psmFwd.available_chunk_mem metPost Device.cuda = some 76 :=
  (available_chunk_mem_fwd_bwd psmFwd metPost 20 15 rfl rfl rfl (Or.inl rfl)
    rfl rfl).trans (by norm_num [psmFwd])

/-- C5 counterexample: with warmup active but the training stage already ADAM
(the optimizer step of the warmup iteration), the accelerator value is the
budget minus 16 × default chunk size, not budget × warmup ratio. -/
theorem available_chunk_mem_warmup_cex :
    psmWarmAdam.available_chunk_mem metWarm Device.cuda ≠
      some (psmWarmAdam.overall_gpu_mem * psmWarmAdam.warmup_gpu_chunk_mem_frac) := by
  simp only [PatrickStarManager.available_chunk_mem, psmWarmAdam, metWarm,
    Metronome.is_warmup]
  norm_num

/-- C5 (amended): whenever warmup is active or training has not started, cpu
returns the full configured cpu budget, and the accelerator returns the
budget times the warmup ratio — except in the ADAM stage, where it returns
the budget minus 4·default_chunk_size·4. -/
theorem available_chunk_mem_warmup (m : PatrickStarManager) (met : Metronome)
    (h : met.is_warmup = true ∨ m.start_training = false) :
    m.available_chunk_mem met Device.cpu = some m.overall_cpu_mem ∧
    (m.training_stage ≠ TrainingStage.ADAM →
      m.available_chunk_mem met Device.cuda =
        some (m.overall_gpu_mem * m.warmup_gpu_chunk_mem_frac)) ∧
    (m.training_stage = TrainingStage.ADAM →
      m.available_chunk_mem met Device.cuda =
        some (m.overall_gpu_mem - 4 * m.default_chunk_size * 4)) := by
  refine ⟨?_, ?_, ?_⟩
  · simp [PatrickStarManager.available_chunk_mem]
  · intro hne
    rcases h with h | h <;>
      simp [PatrickStarManager.available_chunk_mem, h, hne]
  · intro hadam
    rcases h with h | h <;>
      simp [PatrickStarManager.available_chunk_mem, h, hadam]

/-- C5 witness: during warmup (FWD stage), cpu yields the 200-element budget
and the accelerator yields 100 · (1/5) = 20. -/
theorem available_chunk_mem_warmup_witness :
    psmWarm.available_chunk_mem metWarm Device.cuda = some 20 ∧
    psmWarm.available_chunk_mem metWarm Device.cpu = some 200 :=
  ⟨((available_chunk_mem_warmup psmWarm metWarm (Or.inl rfl)).2.1
      (by decide)).trans (by norm_num [psmWarm]),
    ((available_chunk_mem_warmup psmWarm metWarm (Or.inl rfl)).1).trans
      (by norm_num [psmWarm])⟩

/-- C6: during warmup, `tiktac` appends exactly one sample — observed system
memory minus chunk memory — to each device class's non-chunk trace, and
(under the once-per-moment discipline, i.e. the trace length equals the
moment index beforehand) the accelerator trace length afterwards equals the
moment index plus one, so the warmup assertion passes and the metronome
advances. -/
theorem tiktac_warmup_trace (m : PatrickStarManager) (met : Metronome)
    (chunks : List Chunk) (obs : TiktacObs) (hw : met.is_warmup = true)
    (hlen : m.gpu_sys_used_list.length = met.moment) :
    m.tiktac met chunks obs = some (m.record_warmup obs, met.tiktac, none) ∧
    (m.record_warmup obs).gpu_sys_used_list =
      m.gpu_sys_used_list ++ [obs.gpu_used - m.gpu_chunk_used_mem] ∧
    (m.record_warmup obs).cpu_sys_used_list =
      m.cpu_sys_used_list ++ [obs.cpu_used - m.cpu_chunk_used_mem] ∧
    (m.record_warmup obs).gpu_sys_used_list.length = met.moment + 1 := by
  refine ⟨?_, rfl, rfl, ?_⟩
  · unfold PatrickStarManager.tiktac
    rw [if_pos hw, if_pos]
    simp [PatrickStarManager.record_warmup, hlen]
  · simp [PatrickStarManager.record_warmup, hlen]

/-- C6 witness: warmup manager with two recorded moments, metronome at
moment 2 — the call succeeds and the trace grows to length 3. -/
theorem tiktac_warmup_trace_witness :
    psmWarm.tiktac metWarm [chunkA] obsEx =
      some (psmWarm.record_warmup obsEx, metWarm.tiktac, none) ∧
    (psmWarm.record_warmup obsEx).gpu_sys_used_list.length = 3 := by
  obtain ⟨h1, _, _, h4⟩ :=
    tiktac_warmup_trace psmWarm metWarm [chunkA] obsEx rfl rfl
  exact ⟨h1, h4⟩

/-- C7: a successful `access` on a registered tensor leaves its record with
status COMPUTE, refreshes the owning chunk's touch time to the access clock,
and leaves the owning chunk resident on the param's compute device (migrating
it there first when the devices differed). -/
theorem access_spec (mgr : HybridPSManagerModel) (s : ClientState) (p : PSParam)
    (kind : AccessType) (now : ℕ) (cid : ℕ) (ch : Chunk) (s' : ClientState)
    (hreg : assocFind (tid_of p kind) s.dict_tensor_id_chunk_id = some cid)
    (hch : s.chunk_list.get? cid = some ch)
    (hhas : ch.has_tensor (tid_of p kind) = true)
    (hok : s.access mgr p kind now = Except.ok s') :
    s'.tensor_status (tid_of p kind) = some PSTensorStatus.COMPUTE ∧
    ∃ ch', s'.chunk_list.get? cid = some ch' ∧
      ch'.device = p.compute_device ∧ ch'.touch_time = now := by
  cases hps : p.is_ps_param with
  | false =>
    unfold ClientState.access at hok
    rw [if_pos hps] at hok
    exact Except.noConfusion hok
  | true =>
    unfold ClientState.access at hok
    rw [if_neg (by simp [hps])] at hok
    simp only [hreg, hch] at hok
    cases hstep : access_step s mgr p cid ch with
    | error e =>
      rw [hstep] at hok
      exact Except.noConfusion hok
    | ok s1 =>
      simp only [hstep] at hok
      obtain ⟨hdict1, ch1, hch1, hinfo, hdev1⟩ := access_step_ok_props hch hstep
      obtain ⟨s2, hfin, hdict2, hcl2⟩ :=
        @access_finish_props s1 cid (tid_of p kind) ch1 p.compute_device now hch1 hdev1
      rw [hfin] at hok
      cases hok
      have hlt1 : cid < s1.chunk_list.length := get?_some_lt hch1
      have hget :
          s'.chunk_list.get? cid =
            some ((ch1.touch now).set_status (tid_of p kind) PSTensorStatus.COMPUTE) := by
        rw [hcl2, List.set_set]
        exact List.get?_set_eq_of_lt _ hlt1
      have hhas1 : (ch1.touch now).has_tensor (tid_of p kind) = true := by
        show ch1.tensor_info_list.any _ = true
        rw [hinfo]
        exact hhas
      constructor
      · unfold ClientState.tensor_status
        simp only [hdict2, hdict1, hreg, hget]
        exact status_of_set_status _ _ _ hhas1
      · exact ⟨_, hget, hdev1, rfl⟩

/-- C7 witness: accessing registered tensor 0 of `clientEx` at clock 7 leaves
it COMPUTE on a chunk touched at 7 and resident on the compute device. -/
theorem access_spec_witness :
    clientExAfter.tensor_status 0 = some PSTensorStatus.COMPUTE ∧
    ∃ ch', clientExAfter.chunk_list.get? 0 = some ch' ∧
      ch'.device = Device.cpu ∧ ch'.touch_time = 7 :=
  access_spec mgrBig clientEx paramEx AccessType.DATA 7 0 chunkA clientExAfter
    rfl rfl (by decide) rfl

/-- C8: `release` on a registered tensor sets its record to HOLD, is
idempotent (the second call returns the same state, still HOLD, with no
error), keeps every chunk on its device, and keeps the binding table. -/
theorem release_spec (s : ClientState) (p : PSParam) (kind : AccessType)
    (cid : ℕ) (ch : Chunk)
    (hps : p.is_ps_param = true)
    (hreg : assocFind (tid_of p kind) s.dict_tensor_id_chunk_id = some cid)
    (hch : s.chunk_list.get? cid = some ch)
    (hhas : ch.has_tensor (tid_of p kind) = true) :
    ∃ s1, s.release p kind = Except.ok s1 ∧
      s1.tensor_status (tid_of p kind) = some PSTensorStatus.HOLD ∧
      s1.release p kind = Except.ok s1 ∧
      s1.dict_tensor_id_chunk_id = s.dict_tensor_id_chunk_id ∧
      ∀ j, (s1.chunk_list.get? j).map Chunk.device =
        (s.chunk_list.get? j).map Chunk.device := by
  have hlt : cid < s.chunk_list.length := get?_some_lt hch
  refine ⟨{ s with chunk_list := s.chunk_list.set cid (ch.set_status (tid_of p kind) PSTensorStatus.HOLD) }, ?_, ?_, ?_, rfl, ?_⟩
  · unfold ClientState.release
    rw [if_neg (by simp [hps])]
    simp only [hreg, hch]
  · exact (tensor_status_eq { s with chunk_list := s.chunk_list.set cid (ch.set_status (tid_of p kind) PSTensorStatus.HOLD) } (tid_of p kind) cid (ch.set_status (tid_of p kind) PSTensorStatus.HOLD) hreg (List.get?_set_eq_of_lt _ hlt)).trans (status_of_set_status _ _ _ hhas)
  · unfold ClientState.release
    rw [if_neg (by simp [hps])]
    simp only [hreg, List.get?_set_eq_of_lt _ hlt, set_status_idem, List.set_set]
  · intro j
    by_cases hj : j = cid
    · subst hj
      rw [List.get?_set_eq_of_lt _ hlt, hch]
      rfl
    · rw [List.get?_set_ne _ _ (fun he => hj he.symm)]

/-- C8 witness: releasing registered tensor 0 of `clientEx` yields HOLD and a
second release returns the identical state. -/
theorem release_spec_witness :
    ∃ s1, clientEx.release paramEx AccessType.DATA = Except.ok s1 ∧
      s1.tensor_status 0 = some PSTensorStatus.HOLD ∧
      s1.release paramEx AccessType.DATA = Except.ok s1 := by
  obtain ⟨s1, h1, h2, h3, _, _⟩ :=
    release_spec clientEx paramEx AccessType.DATA 0 chunkA rfl rfl rfl (by decide)
  exact ⟨s1, h1, h2, h3⟩

/-- C9: the tensor-id-to-chunk-id binding established by `new_tensor` is never
modified afterwards — `access`, `release` and `chunk_move` leave the binding
table untouched, and `new_tensor` itself registers the allocated chunk id for
its tensor id. -/
theorem binding_stable :
    (∀ (mgr : HybridPSManagerModel) (s : ClientState) (p : PSParam)
        (kind : AccessType) (now : ℕ) (s' : ClientState),
      s.access mgr p kind now = Except.ok s' →
      s'.dict_tensor_id_chunk_id = s.dict_tensor_id_chunk_id) ∧
    (∀ (s : ClientState) (p : PSParam) (kind : AccessType) (s' : ClientState),
      s.release p kind = Except.ok s' →
      s'.dict_tensor_id_chunk_id = s.dict_tensor_id_chunk_id) ∧
    (∀ (s : ClientState) (cid : ℕ) (dev : Device),
      (s.chunk_move cid dev).dict_tensor_id_chunk_id = s.dict_tensor_id_chunk_id) ∧
    (∀ (s : ClientState) (numel : ℚ) (tid : ℕ),
      assocFind tid (s.new_tensor numel tid).2.dict_tensor_id_chunk_id =
        some (s.new_tensor numel tid).1) := by
  refine ⟨?_, ?_, fun s cid dev => rfl, ?_⟩
  · intro mgr s p kind now s' hok
    cases hps : p.is_ps_param with
    | false =>
      unfold ClientState.access at hok
      rw [if_pos hps] at hok
      exact Except.noConfusion hok
    | true =>
      unfold ClientState.access at hok
      rw [if_neg (by simp [hps])] at hok
      cases hreg : assocFind (tid_of p kind) s.dict_tensor_id_chunk_id with
      | none =>
        rw [hreg] at hok
        exact Except.noConfusion hok
      | some cid =>
        simp only [hreg] at hok
        cases hch : s.chunk_list.get? cid with
        | none =>
          rw [hch] at hok
          exact Except.noConfusion hok
        | some ch =>
          simp only [hch] at hok
          cases hstep : access_step s mgr p cid ch with
          | error e =>
            rw [hstep] at hok
            exact Except.noConfusion hok
          | ok s1 =>
            simp only [hstep] at hok
            obtain ⟨hdict1, ch1, hch1, _, hdev1⟩ := access_step_ok_props hch hstep
            obtain ⟨s2, hfin, hdict2, _⟩ :=
              @access_finish_props s1 cid (tid_of p kind) ch1 p.compute_device now hch1 hdev1
            rw [hfin] at hok
            cases hok
            rw [hdict2, hdict1]
  · intro s p kind s' hok
    cases hps : p.is_ps_param with
    | false =>
      unfold ClientState.release at hok
      rw [if_pos hps] at hok
      exact Except.noConfusion hok
    | true =>
      unfold ClientState.release at hok
      rw [if_neg (by simp [hps])] at hok
      cases hreg : assocFind (tid_of p kind) s.dict_tensor_id_chunk_id with
      | none =>
        rw [hreg] at hok
        exact Except.noConfusion hok
      | some cid =>
        simp only [hreg] at hok
        cases hch : s.chunk_list.get? cid with
        | none =>
          rw [hch] at hok
          exact Except.noConfusion hok
        | some ch =>
          simp only [hch] at hok
          cases hok
          rfl
  · intro s numel tid
    unfold ClientState.new_tensor
    simp [assocFind]

/-- C9 witness: a concrete access, chunk move and allocation all leave / set
the binding as stated. -/
theorem binding_stable_witness :
    clientExAfter.dict_tensor_id_chunk_id = clientEx.dict_tensor_id_chunk_id ∧
    (clientEx.chunk_move 0 Device.cuda).dict_tensor_id_chunk_id =
      clientEx.dict_tensor_id_chunk_id ∧
    assocFind 5 (clientEx.new_tensor 32 5).2.dict_tensor_id_chunk_id =
      some (clientEx.new_tensor 32 5).1 :=
  ⟨binding_stable.1 mgrBig clientEx paramEx AccessType.DATA 7 clientExAfter rfl,
    binding_stable.2.2.1 clientEx 0 Device.cuda,
    binding_stable.2.2.2 clientEx 32 5⟩

end PatrickStar
